import Mathlib

/-!
Verification of the distributed SVGD logistic-regression driver
(`experiments/logreg.py`) against its natural-language specification.

Particles are 3-dimensional real vectors (one log-precision coordinate and a
2-dimensional weight).  Floating-point numerics are modelled over `ℝ`.
-/

namespace Logreg

/-- A particle: a point of the 3-dimensional real vector space (`d = 3`). -/
abbrev Particle := Fin 3 → ℝ

/-- Squared Euclidean distance between two particles. -/
noncomputable def sqDistance (x y : Particle) : ℝ := ∑ i, (x i - y i) ^ 2

/-- `torch.dist(x, y, p=2)`: the Euclidean (2-norm) distance. -/
noncomputable def torchDist (x y : Particle) : ℝ := Real.sqrt (sqDistance x y)

/-- The kernel of the driver (source lines 61-62):
`kernel(x, y) = exp(-1. * dist(x, y, p=2) ** 2)`.
It takes exactly two arguments; no bandwidth parameter exists. -/
noncomputable def kernel (x y : Particle) : ℝ := Real.exp (-1 * torchDist x y ^ 2)

/-- Kernel written per the spec sentence: `exp(-‖x-y‖²/h)` with the bandwidth
`h` folded in as a distance scale (refinement-side definition, from the spec's
words, to be compared with `kernel` from the source). -/
noncomputable def specKernel (x y : Particle) (h : ℝ) : ℝ :=
  Real.exp (-(sqDistance x y) / h)

lemma sqDistance_nonneg (x y : Particle) : 0 ≤ sqDistance x y :=
  Finset.sum_nonneg fun i _ => sq_nonneg (x i - y i)

lemma kernel_eq (x y : Particle) : kernel x y = Real.exp (-(sqDistance x y)) := by
  unfold kernel torchDist
  rw [Real.sq_sqrt (sqDistance_nonneg x y)]
  ring_nf

lemma sqDistance_comm (x y : Particle) : sqDistance x y = sqDistance y x := by
  unfold sqDistance
  exact Finset.sum_congr rfl fun i _ => by ring

lemma sqDistance_self (x : Particle) : sqDistance x x = 0 := by
  unfold sqDistance
  simp

lemma sqDistance_eq_zero_iff (x y : Particle) : sqDistance x y = 0 ↔ x = y := by
  unfold sqDistance
  constructor
  · intro h
    funext i
    have h0 : ∀ i ∈ Finset.univ, (0:ℝ) ≤ (x i - y i) ^ 2 :=
      fun i _ => sq_nonneg _
    have := (Finset.sum_eq_zero_iff_of_nonneg h0).mp h i (Finset.mem_univ i)
    have := pow_eq_zero_iff (n := 2) (by norm_num) |>.mp this
    linarith [sub_eq_zero.mp this]
  · intro h
    subst h
    simp

/-- C5: for every bandwidth h > 0 and all particle positions x, y, the kernel
used by the driver is symmetric, `kernel(x,y) = kernel(y,x)`, and evaluates to
exactly 1 when both arguments coincide, `kernel(x,x) = 1`. -/
theorem kernel_symm_and_self (h : ℝ) (x y : Particle) (hh : 0 < h) :
    kernel x y = kernel y x ∧ kernel x x = 1 := by
  constructor
  · rw [kernel_eq, kernel_eq, sqDistance_comm]
  · rw [kernel_eq, sqDistance_self, neg_zero, Real.exp_zero]

/-- Witness for C5 at h = 10 and concrete particles. -/
theorem kernel_symm_and_self_witness :
    0 < (10:ℝ) ∧
      (kernel ![1,0,0] ![0,1,0] = kernel ![0,1,0] ![1,0,0] ∧
        kernel ![1,0,0] ![1,0,0] = 1) :=
  ⟨by norm_num, kernel_symm_and_self 10 ![1,0,0] ![0,1,0] (by norm_num)⟩

/-- C10: for every pair of particle positions, the kernel value lies in the
half-open interval (0, 1]: strictly positive, at most 1, and equal to 1
exactly when the two positions coincide. -/
theorem kernel_range (x y : Particle) :
    0 < kernel x y ∧ kernel x y ≤ 1 ∧ (kernel x y = 1 ↔ x = y) := by
  rw [kernel_eq]
  refine ⟨Real.exp_pos _, Real.exp_le_one_iff.mpr (by linarith [sqDistance_nonneg x y]), ?_⟩
  rw [Real.exp_eq_one_iff, neg_eq_zero, sqDistance_eq_zero_iff]

lemma sqDistance_example : sqDistance ![1,0,0] ![0,0,0] = 1 := by
  unfold sqDistance
  rw [Fin.sum_univ_three]
  norm_num [Matrix.cons_val_zero, Matrix.cons_val_one]

/-- C2 counterexample: at x = (1,0,0), y = (0,0,0) and the bandwidth h = 10
actually supplied by the driver, the kernel used in the update does not equal
`exp(-‖x-y‖²/h)`: the source kernel takes no bandwidth argument at all. -/
theorem kernel_bandwidth_cex :
    0 < (10:ℝ) ∧ kernel ![1,0,0] ![0,0,0] ≠ specKernel ![1,0,0] ![0,0,0] 10 := by
  refine ⟨by norm_num, ?_⟩
  rw [kernel_eq]
  unfold specKernel
  rw [sqDistance_example]
  intro hEq
  have := Real.exp_injective hEq
  norm_num at this

/-- C2 amended: the kernel used in the update is `exp(-‖x-y‖²)`, independent of
the per-step bandwidth; it coincides with the spec's formula `exp(-‖x-y‖²/h)`
only at h = 1, and two different bandwidths never change its value. -/
theorem kernel_bandwidth_amended (x y : Particle) :
    kernel x y = Real.exp (-(sqDistance x y)) ∧ kernel x y = specKernel x y 1 := by
  refine ⟨kernel_eq x y, ?_⟩
  rw [kernel_eq]
  unfold specKernel
  norm_num

/-! ## Shard partitioning (`samples_per_shard`, `data_idx_range`) -/

/-- `samples_per_shard = int(x_train.shape[0] / num_shards)` (source line 37):
integer division of the dataset size by the shard count. -/
def samples_per_shard (N numShards : ℕ) : ℕ := N / numShards

/-- `data_idx_range(rank)` (source lines 43-45): the (start, end) indices of the
range of data belonging to the worker with rank `rank`. -/
def data_idx_range (N numShards rank : ℕ) : ℕ × ℕ :=
  (samples_per_shard N numShards * rank, samples_per_shard N numShards * (rank + 1))

/-- The set of global row indices owned by a rank: the half-open range
`[start, end)` that `x_train[shard_start_idx:shard_end_idx]` selects. -/
def shardSet (N numShards rank : ℕ) : Finset ℕ :=
  Finset.Ico (data_idx_range N numShards rank).1 (data_idx_range N numShards rank).2

/-- C3: for numShards ≥ 1 and dataset size N, the shard of rank r is the
contiguous half-open range [r⌊N/S⌋, (r+1)⌊N/S⌋); every shard has exactly
⌊N/S⌋ rows, shards of distinct ranks are pairwise disjoint, and the trailing
N mod S rows belong to no shard of ranks 0..S-1. -/
theorem shard_partition (N S : ℕ) (hS : 1 ≤ S) :
    (∀ r, shardSet N S r = Finset.Ico (r * (N / S)) ((r + 1) * (N / S))) ∧
      (∀ r, (shardSet N S r).card = N / S) ∧
      (∀ r r', r ≠ r' → Disjoint (shardSet N S r) (shardSet N S r')) ∧
      (∀ i, S * (N / S) ≤ i → ∀ r, r < S → i ∉ shardSet N S r) := by
  have hset : ∀ r, shardSet N S r = Finset.Ico (r * (N / S)) ((r + 1) * (N / S)) := by
    intro r
    unfold shardSet data_idx_range samples_per_shard
    simp [Nat.mul_comm]
  refine ⟨hset, ?_, ?_, ?_⟩
  · intro r
    rw [hset r, Nat.card_Ico]
    have hexp : (r + 1) * (N / S) = r * (N / S) + N / S := by ring
    rw [hexp, Nat.add_sub_cancel_left]
  · intro r r' hne
    have key : ∀ a b : ℕ, a < b →
        Disjoint (shardSet N S a) (shardSet N S b) := by
      intro a b hab
      rw [hset a, hset b, Finset.disjoint_left]
      intro i hi hi'
      rw [Finset.mem_Ico] at hi hi'
      have h1 : (a + 1) * (N / S) ≤ b * (N / S) :=
        Nat.mul_le_mul_right _ hab
      omega
    rcases Nat.lt_or_ge r r' with h | h
    · exact key r r' h
    · exact (key r' r (lt_of_le_of_ne h (Ne.symm hne))).symm
  · intro i hi r hr
    rw [hset r, Finset.mem_Ico]
    intro ⟨_, hlt⟩
    have : (r + 1) * (N / S) ≤ S * (N / S) :=
      Nat.mul_le_mul_right _ hr
    omega

/-- Witness for C3 at N = 10 rows and S = 3 shards. -/
theorem shard_partition_witness :
    1 ≤ 3 ∧
      ((∀ r, shardSet 10 3 r = Finset.Ico (r * (10 / 3)) ((r + 1) * (10 / 3))) ∧
        (∀ r, (shardSet 10 3 r).card = 10 / 3) ∧
        (∀ r r', r ≠ r' → Disjoint (shardSet 10 3 r) (shardSet 10 3 r')) ∧
        (∀ i, 3 * (10 / 3) ≤ i → ∀ r, r < 3 → i ∉ shardSet 10 3 r)) :=
  ⟨by norm_num, shard_partition 10 3 (by norm_num)⟩

/-! ## The log-density `logp` -/

/-- The fixed training set: N rows, each a 2-dimensional feature vector
`x i` with a label `t i`. -/
structure Dataset where
  N : ℕ
  x : ℕ → Fin 2 → ℝ
  t : ℕ → ℝ

/-- Dot product of a feature row with the weight vector
(`torch.matmul` of a length-2 row with `w`). -/
noncomputable def dot2 (a b : Fin 2 → ℝ) : ℝ := a 0 * b 0 + a 1 * b 1

/-- `Gamma(concentration, rate).log_prob(a)` as torch computes it:
`concentration·log rate + (concentration-1)·log a - rate·a - log Γ(concentration)`. -/
noncomputable def gammaLogProb (concentration rate a : ℝ) : ℝ :=
  concentration * Real.log rate + (concentration - 1) * Real.log a
    - rate * a - Real.log (Real.Gamma concentration)

/-- `MultivariateNormal(0₂, I/alpha).log_prob(w)` as torch computes it:
`-(1/2)·(wᵀΣ⁻¹w + d·log(2π) + log det Σ)` with `Σ = I₂/alpha`, so the
quadratic form is `alpha·‖w‖²` and `det Σ = (1/alpha)²`. -/
noncomputable def mvnLogProbIso (alpha : ℝ) (w : Fin 2 → ℝ) : ℝ :=
  -(1 / 2) * ((w 0 ^ 2 + w 1 ^ 2) * alpha + 2 * Real.log (2 * Real.pi)
    + Real.log ((1 / alpha) * (1 / alpha)))

/-- `logp(shard, x)` (source lines 47-59): slice the shard-local rows via
`data_idx_range`, set `alpha = exp(x[0])` and `w = x[1:3]`, and accumulate the
Gamma(1,1) log-prob of alpha, the MVN(0, I/alpha) log-prob of w, and the sum
over local rows of `-log(1 + exp(-1 · t_i·(x_i·w)))`. -/
noncomputable def logp (D : Dataset) (numShards shard : ℕ) (xp : Particle) : ℝ :=
  gammaLogProb 1 1 (Real.exp (xp 0))
    + mvnLogProbIso (Real.exp (xp 0)) (fun i => xp i.succ)
    + ∑ i in Finset.Ico (data_idx_range D.N numShards shard).1
        (data_idx_range D.N numShards shard).2,
        -Real.log (1 + Real.exp (-1 * (D.t i * dot2 (D.x i) (fun j => xp j.succ))))

/-- Density of the Gamma(shape, rate) distribution at a (spec-side reference):
`rate^shape · a^(shape-1) · e^(-rate·a) / Γ(shape)`, real powers. -/
noncomputable def gammaPdf (shape rate a : ℝ) : ℝ :=
  rate ^ shape * a ^ (shape - 1) * Real.exp (-(rate * a)) / Real.Gamma shape

/-- Density of the zero-mean bivariate normal with covariance `I₂/alpha`
(spec-side reference): `exp(-(1/2)·alpha·‖w‖²) / sqrt((2π)²·det(I/alpha))`. -/
noncomputable def mvnPdfIso (alpha : ℝ) (w : Fin 2 → ℝ) : ℝ :=
  Real.exp (-(1 / 2) * ((w 0 ^ 2 + w 1 ^ 2) * alpha))
    / Real.sqrt ((2 * Real.pi) ^ 2 * ((1 / alpha) * (1 / alpha)))

lemma gammaLogProb_one_one (a : ℝ) : gammaLogProb 1 1 a = -a := by
  unfold gammaLogProb
  rw [Real.log_one, Real.Gamma_one, Real.log_one]
  ring

lemma log_gammaPdf_one_one (a : ℝ) : Real.log (gammaPdf 1 1 a) = -a := by
  unfold gammaPdf
  rw [Real.one_rpow, sub_self, Real.rpow_zero, Real.Gamma_one]
  simp [Real.log_exp]

lemma log_mvnPdfIso (alpha : ℝ) (hα : 0 < alpha) (w : Fin 2 → ℝ) :
    Real.log (mvnPdfIso alpha w) = mvnLogProbIso alpha w := by
  unfold mvnPdfIso mvnLogProbIso
  have hsq : (2 * Real.pi) ^ 2 * ((1 / alpha) * (1 / alpha))
      = ((2 * Real.pi) * (1 / alpha)) ^ 2 := by ring
  rw [hsq, Real.sqrt_sq (by positivity)]
  rw [Real.log_div (Real.exp_ne_zero _) (by positivity), Real.log_exp,
    Real.log_mul (by positivity) (by positivity)]
  have hlog1a : Real.log (1 / alpha) = -Real.log alpha := by
    rw [one_div, Real.log_inv]
  have hmul : Real.log (1 / alpha * (1 / alpha)) = -2 * Real.log alpha := by
    rw [Real.log_mul (by positivity) (by positivity), hlog1a]
    ring
  rw [hlog1a, hmul]
  ring

/-- C4: for every shard and particle x, `logp(shard, x)` is the sum of the log
of the Gamma(1,1) density at `alpha = exp(x[0])`, the log of the zero-mean
normal density with covariance `I/alpha` at `w = x[1:3]`, and the sum over the
shard's rows `[r⌊N/S⌋, (r+1)⌊N/S⌋)` of `-log(1 + exp(-t_i·(x_i·w)))`. -/
theorem logp_decomposition (D : Dataset) (S shard : ℕ) (xp : Particle) :
    logp D S shard xp =
      Real.log (gammaPdf 1 1 (Real.exp (xp 0)))
        + Real.log (mvnPdfIso (Real.exp (xp 0)) (fun i => xp i.succ))
        + ∑ i in Finset.Ico (shard * (D.N / S)) ((shard + 1) * (D.N / S)),
            -Real.log (1 + Real.exp (-(D.t i * dot2 (D.x i) (fun j => xp j.succ)))) := by
  unfold logp
  rw [log_gammaPdf_one_one, log_mvnPdfIso _ (Real.exp_pos _), gammaLogProb_one_one]
  unfold data_idx_range samples_per_shard
  have hrange1 : D.N / S * shard = shard * (D.N / S) := Nat.mul_comm _ _
  have hrange2 : D.N / S * (shard + 1) = (shard + 1) * (D.N / S) := Nat.mul_comm _ _
  rw [hrange1, hrange2]
  congr 1
  exact Finset.sum_congr rfl fun i _ => by ring_nf

/-! ## The exchange flags passed to the DistSampler constructor -/

/-- A Python string value: its character content together with the identity
(`id`) of the heap object holding it. -/
structure PyStr where
  content : String
  oid : ℕ

/-- Python `is`: object-identity comparison. -/
def pyIs (a b : PyStr) : Bool := a.oid == b.oid

/-- The string literal `'all_scores'` occurring in `run` (source line 71); the
object created for the module's code gets identity 0 in this model. -/
def allScoresLit : PyStr := ⟨"all_scores", 0⟩

/-- `exchange in ['all_particles', 'all_scores']` (source line 70): Python list
membership compares elements by string equality. -/
def exchangeParticlesFlag (exchange : PyStr) : Bool :=
  exchange.content == "all_particles" || exchange.content == "all_scores"

/-- `exchange is 'all_scores'` (source line 71): an identity comparison of the
argument against the literal object, not an equality test. -/
def exchangeScoresFlag (exchange : PyStr) : Bool := pyIs exchange allScoresLit

/-- The exchange string as it reaches `run` from the command line: click's
Choice returns the argv-derived string, which CPython does not intern, so it is
a distinct object (identity 1) whose content equals `"all_scores"`. -/
def cliAllScores : PyStr := ⟨"all_scores", 1⟩

/-- C1: at the failing input — `--exchange all_scores` given on the command
line — the exchange argument equals the string 'all_scores', and the sampler is
built with particle exchange enabled but score exchange DISABLED, because
`exchange is 'all_scores'` compares object identity and the CLI string is a
distinct object from the literal. -/
theorem exchange_flags_at_cli_input :
    cliAllScores.content = "all_scores" ∧
      exchangeParticlesFlag cliAllScores = true ∧
      exchangeScoresFlag cliAllScores = false :=
  ⟨rfl, rfl, rfl⟩

/-! ## Configuration validation -/

/-- A command-line configuration as the `cli` options declare it: integer
process, particle and iteration counts, and an exchange-mode string. -/
structure CliConfig where
  nproc : ℤ
  nparticles : ℤ
  niter : ℤ
  exchange : String

/-- click's validation of the options (source lines 98-106): `nproc` is
declared `IntRange(0, 32)` and `exchange` is a `Choice` of the three mode
strings; `nparticles` and `niter` are plain `int` options with no bounds. -/
def cliAccepts (c : CliConfig) : Prop :=
  0 ≤ c.nproc ∧ c.nproc ≤ 32 ∧
    c.exchange ∈ ["partitions", "all_particles", "all_scores"]

/-- Whether `run` reaches the `DistSampler` construction at source line 69:
after CLI validation, the only step that can fail beforehand is the particle
initialization `torch.cat([make_sample() for _ in range(nparticles)])`, whose
list is empty for `nparticles ≤ 0` (`torch.cat` rejects an empty list).  No
check inspects `niter` or compares the shard count with the dataset size. -/
def samplerConstructed (c : CliConfig) : Prop :=
  cliAccepts c ∧ 1 ≤ c.nparticles

/-- A configuration with a non-positive iteration count, which the claim calls
invalid: one process, ten particles, zero iterations, mode partitions. -/
def zeroIterConfig : CliConfig := ⟨1, 10, 0, "partitions"⟩

/-- C6 counterexample: the configuration with `niter = 0` is invalid in the
claim's sense (non-positive iteration count), yet the sampler is constructed:
no rejection happens at construction time. -/
theorem config_rejection_cex :
    ¬ (0 < zeroIterConfig.niter) ∧ samplerConstructed zeroIterConfig := by
  refine ⟨by norm_num [zeroIterConfig], ⟨⟨?_, ?_, ?_⟩, ?_⟩⟩
  · norm_num [zeroIterConfig]
  · norm_num [zeroIterConfig]
  · simp [zeroIterConfig]
  · norm_num [zeroIterConfig]

/-- C6 amended: the sampler is constructed exactly when the CLI accepts the
configuration (process count in range, exchange mode one of the three choices)
and the particle count is at least 1; in particular a non-positive iteration
count or a shard count exceeding the dataset size is never rejected — the
construction condition does not mention `niter` or the dataset size at all. -/
theorem config_rejection_amended (c : CliConfig) :
    samplerConstructed c ↔
      (0 ≤ c.nproc ∧ c.nproc ≤ 32 ∧
        c.exchange ∈ ["partitions", "all_particles", "all_scores"] ∧
        1 ≤ c.nparticles) := by
  unfold samplerConstructed cliAccepts
  tauto

/-! ## The DistSampler step

The `dsvgd` module is not among the sources; the definitions below are
modelled from the spec's description of `DistSampler.make_step`. -/

/-- The run-wide exchange mode, fixed at construction. -/
inductive ExchangeMode
  | partitions
  | all_particles
  | all_scores
deriving DecidableEq

/-- Gradient of the driver's kernel with respect to its first argument:
`∇_y exp(-‖y-x‖²) = -2·(y-x)·exp(-‖y-x‖²)`.  Modelled from the spec: the
kernel must expose its gradient for the repulsive term of the update. -/
noncomputable def gradKernel (y x : Particle) : Particle :=
  fun i => -2 * (y i - x i) * kernel y x

/-- All particles of all workers, each tagged with its owner's rank, in rank
order.  Modelled from the spec: under the exchanging modes `Y` is "the union
of all workers' particles". -/
def taggedUnion (P : List (List Particle)) : List (ℕ × Particle) :=
  (P.enum.map (fun rp => rp.2.map (fun y => (rp.1, y)))).join

/-- The comparison population `Y` used by the worker of rank `r`, each element
tagged by its owning rank.  Modelled from the spec: `partitions` uses only the
worker's own local population; `all_particles` and `all_scores` use the union
of all workers' particles. -/
def comparisonPop (mode : ExchangeMode) (r : ℕ) (P : List (List Particle)) :
    List (ℕ × Particle) :=
  match mode with
  | .partitions => (P.getD r []).map (fun y => (r, y))
  | .all_particles => taggedUnion P
  | .all_scores => taggedUnion P

/-- The score worker `r` uses for a comparison particle owned by `owner`.
Modelled from the spec: the local score under `partitions`/`all_particles`,
the owning worker's broadcast score under `all_scores`. -/
noncomputable def scoreUsed (mode : ExchangeMode) (score : ℕ → Particle → Particle)
    (r owner : ℕ) (y : Particle) : Particle :=
  match mode with
  | .all_scores => score owner y
  | _ => score r y

/-- One SVGD update of a single particle of worker `r`.  Modelled from the
spec's rule
`x ← x + stepsize · (1/|Y|) · Σ_{y∈Y} [kernel(y,x)·score(y) + ∇_y kernel(y,x)]`;
the driver's kernel accepts no bandwidth, so the `h` handed to `make_step` is
threaded through but cannot reach it. -/
noncomputable def svgdUpdate (mode : ExchangeMode) (score : ℕ → Particle → Particle)
    (stepsize h : ℝ) (r : ℕ) (P : List (List Particle)) (x : Particle) : Particle :=
  fun i =>
    x i + stepsize *
      ((1 / ((comparisonPop mode r P).length : ℝ)) *
        ((comparisonPop mode r P).map
          (fun oy => kernel oy.2 x * scoreUsed mode score r oy.1 oy.2 i
            + gradKernel oy.2 x i)).sum)

/-- Worker `r`'s population after one `make_step`: every local particle is
updated in place by the SVGD rule (modelled from the spec). -/
noncomputable def stepWorker (mode : ExchangeMode) (score : ℕ → Particle → Particle)
    (stepsize h : ℝ) (r : ℕ) (P : List (List Particle)) : List Particle :=
  (P.getD r []).map (svgdUpdate mode score stepsize h r P)

/-- One synchronous iteration of the whole worker group: every rank applies
its update against the same pre-step populations (modelled from the spec's
lock-step exchange). -/
noncomputable def stepAll (mode : ExchangeMode) (score : ℕ → Particle → Particle)
    (stepsize h : ℝ) (P : List (List Particle)) : List (List Particle) :=
  (List.range P.length).map (fun r => stepWorker mode score stepsize h r P)

/-- The per-iteration sequence of worker populations (modelled from the spec:
`niter` synchronized calls to `make_step`). -/
noncomputable def trajectory (mode : ExchangeMode) (score : ℕ → Particle → Particle)
    (stepsize h : ℝ) (P0 : List (List Particle)) : ℕ → List (List Particle)
  | 0 => P0
  | n + 1 => stepAll mode score stepsize h (trajectory mode score stepsize h P0 n)

lemma range_map_getD (l : List (List Particle)) :
    (List.range l.length).map (fun r => l.getD r []) = l := by
  apply List.ext_get
  · simp
  · intro n h1 h2
    simp only [List.get_eq_getElem, List.getElem_map, List.getElem_range]
    rw [List.getD_eq_getElem l [] h2]

/-- C7: for every exchange mode, score function, bandwidth h > 0 and worker
populations, one step with stepsize = 0 leaves every particle unchanged. -/
theorem step_zero_is_identity (mode : ExchangeMode) (score : ℕ → Particle → Particle)
    (h : ℝ) (P : List (List Particle)) (hh : 0 < h) :
    stepAll mode score 0 h P = P := by
  have hupd : ∀ r x, svgdUpdate mode score 0 h r P x = x := by
    intro r x
    funext i
    unfold svgdUpdate
    rw [zero_mul, add_zero]
  unfold stepAll stepWorker
  have hfun : (fun r => (P.getD r []).map (svgdUpdate mode score 0 h r P))
      = fun r => P.getD r [] := by
    funext r
    rw [show svgdUpdate mode score 0 h r P = id from funext (hupd r), List.map_id]
  rw [hfun, range_map_getD]

/-- Witness for C7: a one-worker, one-particle population at the origin with
bandwidth 10 is left unchanged by a zero-stepsize step. -/
theorem step_zero_is_identity_witness :
    0 < (10:ℝ) ∧
      stepAll ExchangeMode.partitions (fun _ _ => fun _ => 0) 0 10 [[![0,0,0]]]
        = [[![0,0,0]]] :=
  ⟨by norm_num,
    step_zero_is_identity ExchangeMode.partitions (fun _ _ => fun _ => 0) 10
      [[![0,0,0]]] (by norm_num)⟩

lemma taggedUnion_single (q : List Particle) :
    taggedUnion [q] = q.map (fun y => (0, y)) := by
  unfold taggedUnion
  simp

lemma comparisonPop_single (mode : ExchangeMode) (q : List Particle) :
    comparisonPop mode 0 [q] = q.map (fun y => (0, y)) := by
  cases mode <;> simp [comparisonPop, taggedUnion_single]

lemma svgdUpdate_single (mode : ExchangeMode) (score : ℕ → Particle → Particle)
    (s h : ℝ) (q : List Particle) (x : Particle) :
    svgdUpdate mode score s h 0 [q] x = svgdUpdate ExchangeMode.partitions score s h 0 [q] x := by
  cases mode
  · rfl
  · funext i
    unfold svgdUpdate
    rw [comparisonPop_single, comparisonPop_single, List.map_map, List.map_map]
    rfl
  · funext i
    unfold svgdUpdate
    rw [comparisonPop_single, comparisonPop_single, List.map_map, List.map_map]
    rfl

/-- The single-worker update: what any exchange mode reduces to when only one
shard exists. -/
noncomputable def singleWorkerStep (score : ℕ → Particle → Particle) (s h : ℝ)
    (q : List Particle) : List Particle :=
  stepWorker ExchangeMode.partitions score s h 0 [q]

lemma stepWorker_single (mode : ExchangeMode) (score : ℕ → Particle → Particle)
    (s h : ℝ) (q : List Particle) :
    stepWorker mode score s h 0 [q] = singleWorkerStep score s h q := by
  unfold stepWorker singleWorkerStep stepWorker
  rw [show svgdUpdate mode score s h 0 [q] = svgdUpdate ExchangeMode.partitions score s h 0 [q]
    from funext (svgdUpdate_single mode score s h q)]

lemma stepAll_single (mode : ExchangeMode) (score : ℕ → Particle → Particle)
    (s h : ℝ) (q : List Particle) :
    stepAll mode score s h [q] = [singleWorkerStep score s h q] := by
  unfold stepAll
  rw [show (([q] : List (List Particle)).length) = 1 from rfl]
  rw [show List.range 1 = [0] from rfl]
  rw [List.map_cons, List.map_nil, stepWorker_single]

lemma trajectory_single (mode : ExchangeMode) (score : ℕ → Particle → Particle)
    (s h : ℝ) (q : List Particle) :
    ∀ n, trajectory mode score s h [q] n
      = [(fun p => singleWorkerStep score s h p)^[n] q]
  | 0 => by rw [trajectory, Function.iterate_zero_apply]
  | n + 1 => by
      rw [trajectory, trajectory_single mode score s h q n, stepAll_single,
        Function.iterate_succ_apply']

/-- C8: with a single shard, the three exchange modes produce identical
sequences of particle populations over any number of steps, for the same
initial population, stepsize and bandwidth. -/
theorem exchange_modes_equal_single_shard (m1 m2 : ExchangeMode)
    (score : ℕ → Particle → Particle) (stepsize h : ℝ) (q : List Particle) (n : ℕ) :
    trajectory m1 score stepsize h [q] n = trajectory m2 score stepsize h [q] n := by
  rw [trajectory_single, trajectory_single]

/-! ## Determinism of a single-shard run -/

/-- Modelled from the spec: after `torch.manual_seed(rank)` the generator's
stream of standard-normal draws is a deterministic function of the seed;
`gen seed k` is the k-th draw.  The initial population stacks `nparticles`
3-dimensional samples drawn in order. -/
def initParticles (gen : ℕ → ℕ → ℝ) (seed nparticles : ℕ) : List Particle :=
  (List.range nparticles).map (fun k => fun i => gen seed (3 * k + i.val))

/-- The configuration surface of a run: particle count, iteration count,
stepsize, bandwidth, exchange mode and the Wasserstein diagnostics toggle. -/
structure RunConfig where
  nparticles : ℕ
  niter : ℕ
  stepsize : ℝ
  h : ℝ
  mode : ExchangeMode
  wasserstein : Bool

/-- The sequence of worker populations of a `numShards = 1` run: rank 0 seeds
the generator with its rank (0), draws the initial particles, then iterates
`make_step`.  Modelled from the spec: the Wasserstein statistic is diagnostics
only and "does not feed back into the update", so it does not appear here. -/
noncomputable def runPopulations (gen : ℕ → ℕ → ℝ) (score : ℕ → Particle → Particle)
    (c : RunConfig) (l : ℕ) : List (List Particle) :=
  trajectory c.mode score c.stepsize c.h [initParticles gen 0 c.nparticles] l

/-- C9: with numShards = 1 and the fixed seed (= rank 0), two runs agreeing on
particle count, iteration count, stepsize, bandwidth and exchange mode produce
the same population at every iteration — even if the remaining configuration
(the Wasserstein toggle) differs. -/
theorem single_shard_deterministic (gen : ℕ → ℕ → ℝ)
    (score : ℕ → Particle → Particle) (c1 c2 : RunConfig)
    (hp : c1.nparticles = c2.nparticles) (hn : c1.niter = c2.niter)
    (hs : c1.stepsize = c2.stepsize) (hb : c1.h = c2.h) (hm : c1.mode = c2.mode)
    (l : ℕ) (hl : l ≤ c1.niter) :
    runPopulations gen score c1 l = runPopulations gen score c2 l := by
  unfold runPopulations
  rw [hp, hs, hb, hm]

/-- A concrete configuration: 10 particles, 100 iterations, stepsize 1e-3,
bandwidth 10, mode partitions, diagnostics off. -/
noncomputable def cfgA : RunConfig := ⟨10, 100, 1/1000, 10, ExchangeMode.partitions, false⟩

/-- The same configuration with the Wasserstein diagnostics turned on. -/
noncomputable def cfgB : RunConfig := ⟨10, 100, 1/1000, 10, ExchangeMode.partitions, true⟩

/-- Witness for C9: the two concrete configurations agree on the listed
parameters and produce the same population at iteration 5. -/
theorem single_shard_deterministic_witness :
    (cfgA.nparticles = cfgB.nparticles ∧ cfgA.niter = cfgB.niter ∧
      cfgA.stepsize = cfgB.stepsize ∧ cfgA.h = cfgB.h ∧ cfgA.mode = cfgB.mode ∧
      5 ≤ cfgA.niter) ∧
      runPopulations (fun _ _ => 0) (fun _ _ => fun _ => 0) cfgA 5
        = runPopulations (fun _ _ => 0) (fun _ _ => fun _ => 0) cfgB 5 :=
  ⟨⟨rfl, rfl, rfl, rfl, rfl, by norm_num [cfgA]⟩,
    single_shard_deterministic (fun _ _ => 0) (fun _ _ => fun _ => 0) cfgA cfgB
      rfl rfl rfl rfl rfl 5 (by norm_num [cfgA])⟩

end Logreg
